import Mathlib

/-!
Verification of the merge-and-validation logic of the square-inventory
scripts.  The Python sources are shallowly embedded:

* a spreadsheet cell is `Option String`, with `none` modelling a pandas
  NaN (a missing value); every source row is assumed to carry the
  required merge columns (spec section 6), so `Series.get(col, '')`
  returns the stored cell;
* a row is a sparse mapping `String → Option String` from column name to
  cell; absent passthrough columns are modelled as `none`;
* Python `str.lower().strip()` is `pyLower` then `pyStrip`, and `c in s`
  is `pyContains`, all written characterwise on the char list so that
  the kernel can evaluate them on concrete witnesses; `len` is
  `String.length`, `', '.join` is `String.intercalate ", "`;
* `max(d, key=d.get)` over a dict with insertion order
  square, palka, tbd returns the first key attaining the maximum, which
  `argmax3` reproduces as the same left-to-right scan;
* the final `sort_values` of the merge script and the sorted key
  iteration only permute output rows; no property below depends on row
  order, so the permutation is not modelled.
-/

namespace Catalog

/-- A spreadsheet cell; `none` models a pandas NaN / missing value. -/
abbrev Cell := Option String

/-- A catalog row: sparse mapping from column name to cell value. -/
def Row := String → Cell

/-- Python `str.lower()`, modelled characterwise on the char list. -/
def pyLower (s : String) : String := String.mk (s.data.map Char.toLower)

/-- Python `str.strip()`: drop leading and trailing whitespace. -/
def pyStrip (s : String) : String :=
  String.mk (((s.data.dropWhile Char.isWhitespace).reverse.dropWhile
    Char.isWhitespace).reverse)

/-- Python `c in s` for a single character. -/
def pyContains (s : String) (c : Char) : Bool := s.data.contains c

/-- `clean_name` from create-merged-catalog.py: NaN becomes the empty
string, otherwise lower-case then strip. -/
def clean_name (c : Cell) : String :=
  match c with
  | none => ""
  | some s => pyStrip (pyLower s)

/-- `evaluate_description` from create-merged-catalog.py: NaN, the
literal string "nan" or the empty (falsy) string score 0; otherwise the
character length, plus 50 when a period occurs, plus 100 when the length
exceeds 100. -/
def evaluate_description (desc : Cell) : Nat :=
  match desc with
  | none => 0
  | some s =>
    if s = "nan" ∨ s = "" then 0
    else s.length + (if pyContains s '.' then 50 else 0)
           + (if s.length > 100 then 100 else 0)

/-- `evaluate_seo` from create-merged-catalog.py: each of the title and
the description adds 100 plus its length when it is not NaN and not the
literal string "nan"; note that the code has no emptiness test, so a
blank string still adds 100. -/
def evaluate_seo (title desc : Cell) : Nat :=
  (match title with
   | none => 0
   | some s => if s = "nan" then 0 else 100 + s.length) +
  (match desc with
   | none => 0
   | some s => if s = "nan" then 0 else 100 + s.length)

/-- Overwrite one field of a row (`merged_row[f] = v`). -/
def setField (r : Row) (f : String) (v : Cell) : Row :=
  fun g => if g = f then v else r g

/-- `best_x.get(col, '') if best_x is not None else ''`: an absent source
is materialized as the empty string; a present row yields its stored
cell (the required merge columns are assumed present, so the default of
`Series.get` is never taken for them). -/
def srcGet (r : Option Row) (f : String) : Cell :=
  match r with
  | none => some ""
  | some row => row f

/-- The three source catalogs, in the dict insertion order of the
script: square, palka, tbd. -/
inductive Src
  | square
  | palka
  | tbd
deriving DecidableEq

/-- The tag string a source contributes to merge notes. -/
def Src.tag : Src → String
  | .square => "square"
  | .palka => "palka"
  | .tbd => "tbd"

/-- Select the component of a source-indexed triple. -/
def pick3 {α : Type} (s : Src) (a b c : α) : α :=
  match s with
  | .square => a
  | .palka => b
  | .tbd => c

/-- `max(scores, key=scores.get)` over the dict with insertion order
square, palka, tbd: Python's `max` scans left to right and keeps the
first key attaining the maximum, i.e. a later key replaces the current
best only on a strictly greater score. -/
def argmax3 (a b c : Nat) : Src :=
  if b > a then (if c > b then .tbd else .palka)
  else (if c > a then .tbd else .square)

/-- The description candidate a source contributes. -/
def descCand (r : Option Row) : Cell := srcGet r "Description"

/-- `best_desc_source`: the argmax of the three description scores. -/
def best_desc_source (bs bp bt : Option Row) : Src :=
  argmax3 (evaluate_description (descCand bs))
    (evaluate_description (descCand bp))
    (evaluate_description (descCand bt))

/-- The winning description candidate. -/
def bestDescOf (bs bp bt : Option Row) : Cell :=
  pick3 (best_desc_source bs bp bt) (descCand bs) (descCand bp) (descCand bt)

/-- The `if desc_scores[best_desc_source] > 0: merged_row['Description'] = ...`
step. -/
def applyDesc (bs bp bt : Option Row) (r : Row) : Row :=
  if evaluate_description (bestDescOf bs bp bt) > 0 then
    setField r "Description" (bestDescOf bs bp bt)
  else r

/-- The `desc:<source>` merge note, present exactly when a winner exists. -/
def descNote (bs bp bt : Option Row) : List String :=
  if evaluate_description (bestDescOf bs bp bt) > 0 then
    ["desc:" ++ (best_desc_source bs bp bt).tag]
  else []

/-- The SEO title candidate a source contributes. -/
def seoTitleCand (r : Option Row) : Cell := srcGet r "SEO Title"

/-- The SEO description candidate a source contributes. -/
def seoDescCand (r : Option Row) : Cell := srcGet r "SEO Description"

/-- A source's combined SEO score, as computed on its materialized
candidate pair. -/
def seoScoreOf (r : Option Row) : Nat :=
  evaluate_seo (seoTitleCand r) (seoDescCand r)

/-- `best_seo_source`: the argmax of the three SEO scores. -/
def best_seo_source (bs bp bt : Option Row) : Src :=
  argmax3 (seoScoreOf bs) (seoScoreOf bp) (seoScoreOf bt)

/-- The score of the winning SEO source. -/
def bestSeoScore (bs bp bt : Option Row) : Nat :=
  pick3 (best_seo_source bs bp bt) (seoScoreOf bs) (seoScoreOf bp) (seoScoreOf bt)

/-- The `if seo_scores[best_seo_source] > 0:` step: both SEO fields are
overwritten as a unit from the winning source. -/
def applySeo (bs bp bt : Option Row) (r : Row) : Row :=
  if bestSeoScore bs bp bt > 0 then
    setField
      (setField r "SEO Title"
        (pick3 (best_seo_source bs bp bt) (seoTitleCand bs) (seoTitleCand bp) (seoTitleCand bt)))
      "SEO Description"
      (pick3 (best_seo_source bs bp bt) (seoDescCand bs) (seoDescCand bp) (seoDescCand bt))
  else r

/-- The `seo:<source>` merge note. -/
def seoNote (bs bp bt : Option Row) : List String :=
  if bestSeoScore bs bp bt > 0 then
    ["seo:" ++ (best_seo_source bs bp bt).tag]
  else []

/-- The square fallback of the category precedence: source A's value when
A is present with a non-NaN Categories cell. -/
def catFromSquare (bs : Option Row) : Option (Cell × String) :=
  match bs with
  | some rs =>
    match rs "Categories" with
    | some c => some (some c, "cat:square")
    | none => none
  | none => none

/-- The category precedence of the script: palka when present and
non-NaN, else square when present and non-NaN, else nothing; tbd is
never consulted. -/
def catSelect (bs bp : Option Row) : Option (Cell × String) :=
  match bp with
  | some rp =>
    match rp "Categories" with
    | some c => some (some c, "cat:palka")
    | none => catFromSquare bs
  | none => catFromSquare bs

/-- The Categories overwrite step. -/
def applyCat (bs bp : Option Row) (r : Row) : Row :=
  match catSelect bs bp with
  | some (v, _) => setField r "Categories" v
  | none => r

/-- The `cat:<source>` merge note. -/
def catNote (bs bp : Option Row) : List String :=
  match catSelect bs bp with
  | some (_, n) => [n]
  | none => []

/-- The accumulated merge notes, in the order the script appends them. -/
def mergeNotes (bs bp bt : Option Row) : List String :=
  descNote bs bp bt ++ seoNote bs bp bt ++ catNote bs bp

/-- `[k for k, v in sources.items() if v]`: the tags of the sources that
contributed a row, in dict insertion order (a per-key source list is
nonempty exactly when its first row exists). -/
def srcTags (bs bp bt : Option Row) : List String :=
  (if bs.isSome then ["square"] else []) ++
  (if bp.isSome then ["palka"] else []) ++
  (if bt.isSome then ["tbd"] else [])

/-- The base-record choice: square's row if present, else palka's, else
tbd's. -/
def baseOf (bs bp bt : Option Row) : Option Row :=
  match bs with
  | some r => some r
  | none =>
    match bp with
    | some r => some r
    | none => bt

/-- The per-key body of the merge loop after the base copy: overlay the
selected description, SEO pair and category onto the base, then attach
`_merge_sources` and `_merge_notes`. -/
def mergeFields (bs bp bt : Option Row) (base : Row) : Row :=
  setField
    (setField (applyCat bs bp (applySeo bs bp bt (applyDesc bs bp bt base)))
      "_merge_sources" (some (String.intercalate ", " (srcTags bs bp bt))))
    "_merge_notes" (some (String.intercalate ", " (mergeNotes bs bp bt)))

/-- One merged record from the per-source first rows; `none` when no
source contributed (the `continue` branch of the loop). -/
def mergeRecord (bs bp bt : Option Row) : Option Row :=
  (baseOf bs bp bt).map (mergeFields bs bp bt)

/-- The per-source index entry for a normalized key: the rows of that
source whose cleaned name equals the key, in source order; rows whose
name cleans to the empty string are never indexed (`if name:`). -/
def indexRows (rows : List Row) (k : String) : List Row :=
  if k = "" then []
  else rows.filter (fun r => decide (clean_name (r "Item Name") = k))

/-- The merged record the loop produces for one normalized key: the
first indexed row of each source feeds the merge (`sources[s][0]`). -/
def mergeKey (square palka tbd : List Row) (k : String) : Option Row :=
  mergeRecord ((indexRows square k).head?) ((indexRows palka k).head?)
    ((indexRows tbd k).head?)

/-- The distinct nonempty normalized keys occurring in the three
sources: the key set of `product_index`. -/
def allKeys (square palka tbd : List Row) : List String :=
  (((square ++ palka ++ tbd).map (fun r => clean_name (r "Item Name"))).filter
    (fun k => decide (k ≠ ""))).dedup

/-- The merged catalog: one record per indexed key (row order is a
permutation of the script output, which sorts by item name). -/
def mergedCatalog (square palka tbd : List Row) : List Row :=
  (allKeys square palka tbd).filterMap (mergeKey square palka tbd)

/-- Modelled from the spec: the distinct normalized product names across
the three sources, with no emptiness filter — the reading of the claim
that counts every normalized name, including the empty normalization of
a blank or NaN name. -/
def distinctNormalizedNames (square palka tbd : List Row) : List String :=
  ((square ++ palka ++ tbd).map (fun r => clean_name (r "Item Name"))).dedup

/-- Modelled from the spec (section 4.2 as the claim reads it): an SEO
part counts 100 plus its length only when non-null, non-blank and not
the literal "nan"; absent parts contribute 0. -/
def claimSeoPartScore (c : Cell) : Nat :=
  match c with
  | none => 0
  | some s => if s = "" ∨ s = "nan" then 0 else 100 + s.length

/-! ### square_import_value_validator.py -/

/-- An import table: the column headers with their cells, in sheet
order. -/
structure Table where
  cols : List (String × List Cell)

/-- `df.columns`. -/
def columnNames (t : Table) : List String := t.cols.map Prod.fst

/-- `df[field]` when the column exists. -/
def getCol (t : Table) (f : String) : Option (List Cell) :=
  (t.cols.find? (fun c => decide (c.1 = f))).map Prod.snd

/-- `REQUIRED_COLUMNS` of the validator (a Python set; listed here in
source order). -/
def REQUIRED_COLUMNS : List String :=
  ["Reference Handle", "Token", "Item Name", "Variation Name", "SKU",
   "Description", "Categories", "Reporting Category", "SEO Title",
   "SEO Description", "Item Type", "Sold Online", "Available for Sale",
   "Square Online Item Visibility"]

/-- `REQUIRED_VALUES` of the validator, in dict insertion order. -/
def REQUIRED_VALUES : List (String × String) :=
  [("Square Online Item Visibility", "Visible"), ("Sold Online", "Y"),
   ("Available for Sale", "Y"), ("Item Type", "Physical")]

/-- Lexicographic order on char lists: the Python string order used by
`sorted`. -/
def charListLe : List Char → List Char → Bool
  | [], _ => true
  | _ :: _, [] => false
  | x :: xs, y :: ys =>
    if x < y then true else if x = y then charListLe xs ys else false

/-- Insert a string into a sorted list. -/
def insertStr (x : String) : List String → List String
  | [] => [x]
  | y :: ys => if charListLe x.data y.data then x :: y :: ys else y :: insertStr x ys

/-- Python `sorted` on strings. -/
def sortStrs : List String → List String
  | [] => []
  | x :: xs => insertStr x (sortStrs xs)

/-- First-occurrence de-duplication, as pandas `.unique()` does. -/
def uniqueAux (seen : List String) : List String → List String
  | [] => []
  | x :: xs => if x ∈ seen then uniqueAux seen xs else x :: uniqueAux (x :: seen) xs

/-- Pandas `.unique()` on a string column. -/
def uniqueVals (l : List String) : List String := uniqueAux [] l

/-- `df[field].dropna().astype(str).str.strip().unique()`: the distinct
stripped non-null values of a column (the cells are modelled as already
textual, so `astype(str)` is the identity). -/
def distinctStripped (cells : List Cell) : List String :=
  uniqueVals ((cells.filterMap id).map pyStrip)

/-- One problem the validator records in its `errors` list: the missing
header report, a value report with the observed distinct values, or a
missing expected column. -/
inductive VError
  | missingHeaders (names : List String)
  | unexpectedValue (field expected : String) (found : List String)
  | missingColumn (field : String)
deriving DecidableEq

/-- `validate_values` from square_import_value_validator.py: the full
accumulated `errors` list of one invocation — the header check first,
then one check per `REQUIRED_VALUES` entry, never stopping early. -/
def validate_values (t : Table) : List VError :=
  (if REQUIRED_COLUMNS.filter (fun c => decide (c ∉ columnNames t)) = []
   then []
   else [VError.missingHeaders (sortStrs (REQUIRED_COLUMNS.filter
     (fun c => decide (c ∉ columnNames t))))]) ++
  (REQUIRED_VALUES.map (fun fe =>
    match getCol t fe.1 with
    | some cells =>
      if fe.2 ∈ distinctStripped cells then []
      else [VError.unexpectedValue fe.1 fe.2 (distinctStripped cells)]
    | none => [VError.missingColumn fe.1])).flatten

/-! ### manual-seo-updates.py -/

/-- One entry of the hand-written `seo_updates` list. -/
structure SeoUpdate where
  name : String
  seo_title : String
  seo_description : String
  keywords : String

/-- The four field assignments done on the matched row; `now` is the
`datetime.now().isoformat()` timestamp, passed in explicitly. -/
def setRowFields (u : SeoUpdate) (now : String) (r : Row) : Row :=
  setField
    (setField
      (setField (setField r "SEO Title" (some u.seo_title))
        "SEO Description" (some u.seo_description))
      "_seo_keywords" (some u.keywords))
    "_seo_updated" (some now)

/-- One pass of the update loop for one entry: pandas builds the
equality mask over `Item Name` (a NaN never equals the name) and, when
any row matches, assigns the four fields at the first matching index
only; the returned flag records whether a match was found (the script
prints the miss otherwise). -/
def applyUpdate (now : String) (u : SeoUpdate) : List Row → List Row × Bool
  | [] => ([], false)
  | r :: rs =>
    if r "Item Name" = some u.name then (setRowFields u now r :: rs, true)
    else
      let p := applyUpdate now u rs
      (r :: p.1, p.2)

/-! ### concrete fixtures used by counterexamples and witnesses -/

/-- A square row with only an item name: its SEO cells are NaN. -/
def rowA : Row := fun f => if f = "Item Name" then some "Widget" else none

/-- A tbd row with an item name and a category. -/
def rowCatC : Row := fun f =>
  if f = "Item Name" then some "Crystal Wand"
  else if f = "Categories" then some "Crystals, Candles" else none

/-- A row whose item name is blank, so its normalized key is empty. -/
def blankRow : Row := fun f => if f = "Item Name" then some "   " else none

/-- A row with a short period-bearing description. -/
def rowD : Row := fun f =>
  if f = "Item Name" then some "Bowl"
  else if f = "Description" then some "abc." else none

/-- A table missing the Token column whose Sold Online column holds only
the value N. -/
def sampleTable : Table :=
  ⟨[("Item Name", [some "x"]), ("Sold Online", [some "N", none])]⟩

/-- A concrete manual-SEO entry targeting `rowA`. -/
def sampleUpdate : SeoUpdate :=
  ⟨"Widget", "Widget Title", "Widget Desc", "widget, decor"⟩

end Catalog

namespace Catalog

/-- Reading an untouched field back from `setField`. -/
lemma setField_ne {f g : String} (r : Row) (v : Cell) (h : g ≠ f) :
    setField r f v g = r g := by
  simp [setField, h]

/-- Reading the overwritten field back from `setField`. -/
lemma setField_same (r : Row) (f : String) (v : Cell) :
    setField r f v f = v := by
  simp [setField]

/-- The description step only touches the Description field. -/
lemma applyDesc_ne {f : String} (bs bp bt : Option Row) (r : Row)
    (h : f ≠ "Description") : applyDesc bs bp bt r f = r f := by
  unfold applyDesc
  split <;> simp [setField, h]

/-- The SEO step only touches the two SEO fields. -/
lemma applySeo_ne {f : String} (bs bp bt : Option Row) (r : Row)
    (h1 : f ≠ "SEO Title") (h2 : f ≠ "SEO Description") :
    applySeo bs bp bt r f = r f := by
  unfold applySeo
  split <;> simp [setField, h1, h2]

/-- The category step only touches the Categories field. -/
lemma applyCat_ne {f : String} (bs bp : Option Row) (r : Row)
    (h : f ≠ "Categories") : applyCat bs bp r f = r f := by
  unfold applyCat
  cases hc : catSelect bs bp with
  | none => simp [hc]
  | some p =>
    obtain ⟨v, n⟩ := p
    simp [hc, setField, h]

/-- Any field other than the six merge-managed ones passes through the
per-key merge body unchanged. -/
lemma mergeFields_frame {f : String} (bs bp bt : Option Row) (base : Row)
    (h1 : f ≠ "Description") (h2 : f ≠ "SEO Title")
    (h3 : f ≠ "SEO Description") (h4 : f ≠ "Categories")
    (h5 : f ≠ "_merge_sources") (h6 : f ≠ "_merge_notes") :
    mergeFields bs bp bt base f = base f := by
  unfold mergeFields
  rw [setField_ne _ _ h6, setField_ne _ _ h5, applyCat_ne _ _ _ h4,
    applySeo_ne _ _ _ _ h2 h3, applyDesc_ne _ _ _ _ h1]

/-- The provenance column of a merged record. -/
lemma mergeFields_sources (bs bp bt : Option Row) (base : Row) :
    mergeFields bs bp bt base "_merge_sources" =
      some (String.intercalate ", " (srcTags bs bp bt)) := by
  unfold mergeFields
  rw [setField_ne _ _ (by decide), setField_same]

/-- When every source scores zero the SEO winner's score is zero. -/
lemma bestSeoScore_zero {bs bp bt : Option Row} (h1 : seoScoreOf bs = 0)
    (h2 : seoScoreOf bp = 0) (h3 : seoScoreOf bt = 0) :
    bestSeoScore bs bp bt = 0 := by
  unfold bestSeoScore
  cases best_seo_source bs bp bt <;> simp [pick3, h1, h2, h3]

/-- The Categories cell of a merged record is the selected value when
one exists, else the base value. -/
lemma mergeFields_categories (bs bp bt : Option Row) (base : Row) :
    mergeFields bs bp bt base "Categories" =
      match catSelect bs bp with
      | some (v, _) => v
      | none => base "Categories" := by
  unfold mergeFields
  rw [setField_ne _ _ (by decide), setField_ne _ _ (by decide)]
  cases hc : catSelect bs bp with
  | none =>
    simp only [applyCat, hc]
    rw [applySeo_ne _ _ _ _ (by decide) (by decide),
      applyDesc_ne _ _ _ _ (by decide)]
  | some p =>
    simp only [applyCat, hc]
    rw [setField_same]

/-- The head of a filtered list is the first element satisfying the
predicate. -/
lemma head?_filter_eq_find? (p : α → Bool) :
    ∀ l : List α, (l.filter p).head? = l.find? p := by
  intro l
  induction l with
  | nil => rfl
  | cons a t ih =>
    by_cases h : p a
    · simp [List.filter_cons, h]
    · simp [List.filter_cons, h, ih]

/-- A map that never drops an element keeps the list length. -/
lemma length_filterMap_of_isSome (f : α → Option β) :
    ∀ l : List α, (∀ x ∈ l, (f x).isSome) →
      (l.filterMap f).length = l.length := by
  intro l
  induction l with
  | nil => intro _; rfl
  | cons a t ih =>
    intro h
    obtain ⟨b, hb⟩ := Option.isSome_iff_exists.mp (h a (List.mem_cons_self a t))
    rw [List.filterMap_cons, hb]
    simp [ih (fun x hx => h x (List.mem_cons_of_mem a hx))]

/-- Membership in the key set of the merge. -/
lemma mem_allKeys {sq pk tb : List Row} {k : String} :
    k ∈ allKeys sq pk tb ↔
      k ≠ "" ∧ ∃ r ∈ sq ++ pk ++ tb, clean_name (r "Item Name") = k := by
  simp only [allKeys, List.mem_dedup, List.mem_filter, List.mem_map,
    decide_eq_true_eq]
  tauto

/-- A row matching a nonempty key makes its index entry nonempty. -/
lemma indexRows_head_isSome {rows : List Row} {k : String} (hk : k ≠ "")
    (r : Row) (hr : r ∈ rows) (hc : clean_name (r "Item Name") = k) :
    ((indexRows rows k).head?).isSome := by
  have hmem : r ∈ indexRows rows k := by
    unfold indexRows
    rw [if_neg hk]
    exact List.mem_filter.mpr ⟨hr, by simp [hc]⟩
  obtain ⟨a, t, hat⟩ := List.exists_cons_of_ne_nil (List.ne_nil_of_mem hmem)
  rw [hat]
  rfl

/-- The base exists as soon as some source contributed. -/
lemma baseOf_isSome {bs bp bt : Option Row}
    (h : bs.isSome ∨ bp.isSome ∨ bt.isSome) : (baseOf bs bp bt).isSome := by
  cases bs <;> cases bp <;> cases bt <;> simp_all [baseOf]

/-- Which source the base record came from. -/
lemma baseOf_eq_some {bs bp bt : Option Row} {b : Row}
    (h : baseOf bs bp bt = some b) :
    bs = some b ∨ (bs = none ∧ bp = some b) ∨
      (bs = none ∧ bp = none ∧ bt = some b) := by
  cases bs <;> cases bp <;> cases bt <;> simp_all [baseOf]

/-- Every indexed key yields a merged record. -/
lemma mergeKey_isSome_of_mem {sq pk tb : List Row} {k : String}
    (h : k ∈ allKeys sq pk tb) : (mergeKey sq pk tb k).isSome := by
  obtain ⟨hk, r, hr, hc⟩ := mem_allKeys.mp h
  have hbase : (baseOf ((indexRows sq k).head?) ((indexRows pk k).head?)
      ((indexRows tb k).head?)).isSome := by
    apply baseOf_isSome
    rcases List.mem_append.mp hr with h12 | h3
    · rcases List.mem_append.mp h12 with h1 | h2
      · exact Or.inl (indexRows_head_isSome hk r h1 hc)
      · exact Or.inr (Or.inl (indexRows_head_isSome hk r h2 hc))
    · exact Or.inr (Or.inr (indexRows_head_isSome hk r h3 hc))
  simpa [mergeKey, mergeRecord] using hbase

/-- A first-indexed row belongs to its source and matches the key. -/
lemma mem_of_indexRows_head {rows : List Row} {k : String} {b : Row}
    (hk : k ≠ "") (h : (indexRows rows k).head? = some b) :
    b ∈ rows ∧ clean_name (b "Item Name") = k := by
  have hb : b ∈ indexRows rows k :=
    List.mem_of_mem_head? (Option.mem_def.mpr h)
  unfold indexRows at hb
  rw [if_neg hk] at hb
  refine ⟨(List.mem_filter.mp hb).1, ?_⟩
  have := (List.mem_filter.mp hb).2
  simpa using this

/-- C3 helper: the description score as the spec words it, split into the
zero cases and the additive case. -/
theorem evaluate_description_spec (s : String) :
    evaluate_description none = 0 ∧
    evaluate_description (some "") = 0 ∧
    evaluate_description (some "nan") = 0 ∧
    (s ≠ "" → s ≠ "nan" →
      evaluate_description (some s) =
        s.length + (if pyContains s '.' then 50 else 0)
          + (if s.length > 100 then 100 else 0)) := by
  refine ⟨rfl, by simp [evaluate_description], by simp [evaluate_description], ?_⟩
  intro h1 h2
  simp [evaluate_description, h1, h2]

/-- C3 witness: the scoring theorem applied to a concrete candidate with
a period and length four scores 54. -/
theorem evaluate_description_spec_witness :
    evaluate_description (some "abc.") = 54 := by
  have h := (evaluate_description_spec "abc.").2.2.2 (by decide) (by decide)
  rw [h]
  decide

/-- C1 counterexample: a blank SEO part scores 100, not 0, so a source
with blank title and description scores 200; and for a key whose only
source (square) has NaN SEO cells — so every source scores zero under
the claim's presence rule — the merge still elects the absent palka
source (its candidates are materialized blanks) and overwrites the base
record's NaN SEO Title with a blank, leaving a seo:palka note. -/
theorem seo_claim_counterexample :
    evaluate_seo (some "") none = 100 ∧
    claimSeoPartScore (some "") = 0 ∧
    evaluate_seo (some "") (some "") = 200 ∧
    rowA "SEO Title" = none ∧
    (mergeKey [rowA] [] [] "widget").map (fun m => m "SEO Title") =
      some (some "") ∧
    (mergeKey [rowA] [] [] "widget").map (fun m => m "_merge_notes") =
      some (some "seo:palka") := by
  decide

/-- C1 amended: an SEO part scores 100 plus its length exactly when it
is non-null and not the literal "nan" (a blank part counts as present
and contributes 100); the two parts add independently; an absent source
is materialized as a blank pair and so scores 200; only when all three
computed scores are zero is there no winner, and then the base record's
SEO Title and SEO Description are left unchanged. -/
theorem seo_selection_amended (bs bp bt : Option Row) (base : Row)
    (s : String) (t d : Cell) :
    evaluate_seo none none = 0 ∧
    evaluate_seo (some "nan") none = 0 ∧
    (s ≠ "nan" → evaluate_seo (some s) none = 100 + s.length) ∧
    (s ≠ "nan" → evaluate_seo none (some s) = 100 + s.length) ∧
    (evaluate_seo t d = evaluate_seo t none + evaluate_seo none d) ∧
    seoScoreOf none = 200 ∧
    (seoScoreOf bs = 0 → seoScoreOf bp = 0 → seoScoreOf bt = 0 →
      mergeFields bs bp bt base "SEO Title" = base "SEO Title" ∧
      mergeFields bs bp bt base "SEO Description" = base "SEO Description") := by
  refine ⟨rfl, rfl, ?_, ?_, ?_, rfl, ?_⟩
  · intro h
    simp [evaluate_seo, h]
  · intro h
    simp [evaluate_seo, h]
  · cases t <;> cases d <;> simp [evaluate_seo]
  · intro h1 h2 h3
    have hb := bestSeoScore_zero h1 h2 h3
    constructor
    · unfold mergeFields
      rw [setField_ne _ _ (by decide), setField_ne _ _ (by decide),
        applyCat_ne _ _ _ (by decide)]
      unfold applySeo
      rw [hb]
      simp only [gt_iff_lt, lt_irrefl, if_false]
      exact applyDesc_ne _ _ _ _ (by decide)
    · unfold mergeFields
      rw [setField_ne _ _ (by decide), setField_ne _ _ (by decide),
        applyCat_ne _ _ _ (by decide)]
      unfold applySeo
      rw [hb]
      simp only [gt_iff_lt, lt_irrefl, if_false]
      exact applyDesc_ne _ _ _ _ (by decide)

/-- C1 witness: with all three sources present but holding NaN SEO cells
every score is zero and the merged record keeps the base SEO fields. -/
theorem seo_selection_amended_witness :
    mergeFields (some rowA) (some rowA) (some rowA) rowA "SEO Title" =
      rowA "SEO Title" ∧
    mergeFields (some rowA) (some rowA) (some rowA) rowA "SEO Description" =
      rowA "SEO Description" :=
  (seo_selection_amended (some rowA) (some rowA) (some rowA) rowA "x"
    none none).2.2.2.2.2.2 (by decide) (by decide) (by decide)

/-- C2 counterexample: a product present only in the tbd source keeps
that source's category value in the merged record — the claim's
"otherwise Categories is left unset" fails, because the tbd row seeds
the base copy and its value flows through. -/
theorem categories_counterexample :
    clean_name (rowCatC "Item Name") = "crystal wand" ∧
    (mergeKey [] [] [rowCatC] "crystal wand").map (fun m => m "Categories") =
      some (some "Crystals, Candles") := by
  decide

/-- C2 amended: the merged Categories is palka's value when palka is
present with a non-null value; else square's value when square is
present with a non-null value; else it is left unchanged from the base
record (so a tbd-seeded base keeps tbd's value); the selection step
itself never consults tbd. -/
theorem categories_precedence (bs bp bt : Option Row) (base : Row)
    (rp rs : Row) (c : String) :
    (bp = some rp → rp "Categories" = some c →
      mergeFields bs bp bt base "Categories" = some c) ∧
    (bp = some rp → rp "Categories" = none → bs = some rs →
      rs "Categories" = some c →
      mergeFields bs bp bt base "Categories" = some c) ∧
    (bp = none → bs = some rs → rs "Categories" = some c →
      mergeFields bs bp bt base "Categories" = some c) ∧
    (bp = some rp → rp "Categories" = none → bs = some rs →
      rs "Categories" = none →
      mergeFields bs bp bt base "Categories" = base "Categories") ∧
    (bp = some rp → rp "Categories" = none → bs = none →
      mergeFields bs bp bt base "Categories" = base "Categories") ∧
    (bp = none → bs = some rs → rs "Categories" = none →
      mergeFields bs bp bt base "Categories" = base "Categories") ∧
    (bp = none → bs = none →
      mergeFields bs bp bt base "Categories" = base "Categories") := by
  rw [mergeFields_categories]
  refine ⟨?_, ?_, ?_, ?_, ?_, ?_, ?_⟩
  · intro hbp hc
    subst hbp
    simp [catSelect, hc]
  · intro hbp hc hbs hcs
    subst hbp
    subst hbs
    simp [catSelect, catFromSquare, hc, hcs]
  · intro hbp hbs hcs
    subst hbp
    subst hbs
    simp [catSelect, catFromSquare, hcs]
  · intro hbp hc hbs hcs
    subst hbp
    subst hbs
    simp [catSelect, catFromSquare, hc, hcs]
  · intro hbp hc hbs
    subst hbp
    subst hbs
    simp [catSelect, catFromSquare, hc]
  · intro hbp hbs hcs
    subst hbp
    subst hbs
    simp [catSelect, catFromSquare, hcs]
  · intro hbp hbs
    subst hbp
    subst hbs
    simp [catSelect, catFromSquare]

/-- C2 witness: palka's category wins over square's regardless of tbd. -/
theorem categories_precedence_witness :
    mergeFields (some rowA) (some rowCatC) (some rowD) rowA "Categories" =
      some "Crystals, Candles" :=
  (categories_precedence (some rowA) (some rowCatC) (some rowD) rowA
    rowCatC rowA "Crystals, Candles").1 rfl (by decide)

/-- The provenance column of a merged record, through `mergeRecord`. -/
lemma mergeSources_value {bs bp bt : Option Row} {m b : Row}
    (hb : baseOf bs bp bt = some b) (hm : mergeRecord bs bp bt = some m) :
    m "_merge_sources" = some (String.intercalate ", " (srcTags bs bp bt)) := by
  unfold mergeRecord at hm
  rw [hb] at hm
  simp only [Option.map_some', Option.some.injEq] at hm
  rw [← hm]
  exact mergeFields_sources bs bp bt b

/-- C4 counterexample: one source row whose item name is blank gives one
distinct normalized name (the empty string) but an empty merged output —
the claimed equality of counts fails because blank-normalizing rows are
never indexed. -/
theorem union_counterexample :
    (distinctNormalizedNames [blankRow] [] []).length = 1 ∧
    (mergedCatalog [blankRow] [] []).length = 0 := by
  decide

/-- C4 amended: the merged output has exactly one record per distinct
normalized name that is nonempty (rows whose name normalizes to the
empty string are dropped); every indexed key yields a record, and a
product present in exactly one source carries exactly that source's tag
in its provenance column. -/
theorem merged_union_of_keys (sq pk tb : List Row) (k : String) :
    (mergedCatalog sq pk tb).length = (allKeys sq pk tb).length ∧
    (allKeys sq pk tb).Nodup ∧
    (k ∈ allKeys sq pk tb → (mergeKey sq pk tb k).isSome) ∧
    (∀ m, mergeKey sq pk tb k = some m →
      ((indexRows sq k ≠ [] ∧ indexRows pk k = [] ∧ indexRows tb k = []) →
        m "_merge_sources" = some "square") ∧
      ((indexRows sq k = [] ∧ indexRows pk k ≠ [] ∧ indexRows tb k = []) →
        m "_merge_sources" = some "palka") ∧
      ((indexRows sq k = [] ∧ indexRows pk k = [] ∧ indexRows tb k ≠ []) →
        m "_merge_sources" = some "tbd")) := by
  refine ⟨?_, List.nodup_dedup _, fun h => mergeKey_isSome_of_mem h, ?_⟩
  · exact length_filterMap_of_isSome _ _ (fun x hx => mergeKey_isSome_of_mem hx)
  · intro m hm
    refine ⟨?_, ?_, ?_⟩
    · rintro ⟨hs, hp, ht⟩
      obtain ⟨a, t', ha⟩ := List.exists_cons_of_ne_nil hs
      unfold mergeKey at hm
      rw [ha, hp, ht] at hm
      simp only [List.head?_cons, List.head?_nil] at hm
      have := @mergeSources_value (some a) none none m a rfl hm
      rw [this]
      rfl
    · rintro ⟨hs, hp, ht⟩
      obtain ⟨a, t', ha⟩ := List.exists_cons_of_ne_nil hp
      unfold mergeKey at hm
      rw [ha, hs, ht] at hm
      simp only [List.head?_cons, List.head?_nil] at hm
      have := @mergeSources_value none (some a) none m a rfl hm
      rw [this]
      rfl
    · rintro ⟨hs, hp, ht⟩
      obtain ⟨a, t', ha⟩ := List.exists_cons_of_ne_nil ht
      unfold mergeKey at hm
      rw [ha, hs, hp] at hm
      simp only [List.head?_cons, List.head?_nil] at hm
      have := @mergeSources_value none none (some a) m a rfl hm
      rw [this]
      rfl

/-- C4 witness: a one-product, one-source catalog merges to one record
tagged square. -/
theorem merged_union_of_keys_witness :
    (mergedCatalog [rowA] [] []).length = (allKeys [rowA] [] []).length ∧
    (mergeFields (some rowA) none none rowA) "_merge_sources" =
      some "square" := by
  refine ⟨(merged_union_of_keys [rowA] [] [] "widget").1, ?_⟩
  exact ((merged_union_of_keys [rowA] [] [] "widget").2.2.2
    (mergeFields (some rowA) none none rowA) rfl).1
    ⟨fun h => absurd (congrArg List.length h) (by decide), rfl, rfl⟩

/-- C5: the description winner is decided by a single max-scan over the
fixed order square, palka, tbd, so a source tied for the (nonzero)
maximal score loses only to a tied source still earlier in that order;
determinism across runs is immediate since the selection is a pure
function of the candidates. -/
theorem desc_tiebreak (bs bp bt : Option Row) :
    (evaluate_description (descCand bs) = evaluate_description (descCand bp) →
      evaluate_description (descCand bs) ≠ 0 →
      evaluate_description (descCand bt) ≤ evaluate_description (descCand bs) →
      best_desc_source bs bp bt = Src.square) ∧
    (evaluate_description (descCand bp) = evaluate_description (descCand bt) →
      evaluate_description (descCand bp) ≠ 0 →
      evaluate_description (descCand bs) < evaluate_description (descCand bp) →
      best_desc_source bs bp bt = Src.palka) ∧
    (evaluate_description (descCand bs) = evaluate_description (descCand bt) →
      evaluate_description (descCand bs) ≠ 0 →
      evaluate_description (descCand bp) ≤ evaluate_description (descCand bs) →
      best_desc_source bs bp bt = Src.square) := by
  refine ⟨?_, ?_, ?_⟩ <;>
    (intro h1 h2 h3
     unfold best_desc_source argmax3
     split_ifs <;> first | rfl | (exfalso; omega))

/-- C5 witness: square and palka tie on a nonzero description score and
square wins. -/
theorem desc_tiebreak_witness :
    best_desc_source (some rowD) (some rowD) none = Src.square :=
  (desc_tiebreak (some rowD) (some rowD) none).1 (by decide) (by decide)
    (by decide)

/-- C6: per source and key, the merge consumes only the first indexed
row — the head of the filtered index equals the first matching row of
the source, appending later duplicate rows does not change it, and the
merged record depends on each source only through that first row. -/
theorem first_seen_dedup (rows extra sq sq2 pk pk2 tb tb2 : List Row)
    (k : String) (hk : k ≠ "") :
    ((indexRows rows k).head? =
      rows.find? (fun r => decide (clean_name (r "Item Name") = k))) ∧
    ((∃ r ∈ rows, clean_name (r "Item Name") = k) →
      (indexRows (rows ++ extra) k).head? = (indexRows rows k).head?) ∧
    ((indexRows sq k).head? = (indexRows sq2 k).head? →
      mergeKey sq pk tb k = mergeKey sq2 pk tb k) ∧
    ((indexRows pk k).head? = (indexRows pk2 k).head? →
      mergeKey sq pk tb k = mergeKey sq pk2 tb k) ∧
    ((indexRows tb k).head? = (indexRows tb2 k).head? →
      mergeKey sq pk tb k = mergeKey sq pk tb2 k) := by
  refine ⟨?_, ?_, ?_, ?_, ?_⟩
  · unfold indexRows
    rw [if_neg hk]
    exact head?_filter_eq_find? _ rows
  · rintro ⟨r, hr, hc⟩
    have hmem : r ∈ rows.filter
        (fun r => decide (clean_name (r "Item Name") = k)) :=
      List.mem_filter.mpr ⟨hr, by simp [hc]⟩
    unfold indexRows
    rw [if_neg hk, if_neg hk, List.filter_append]
    obtain ⟨a, t, hat⟩ := List.exists_cons_of_ne_nil (List.ne_nil_of_mem hmem)
    rw [hat]
    rfl
  · intro h
    unfold mergeKey
    rw [h]
  · intro h
    unfold mergeKey
    rw [h]
  · intro h
    unfold mergeKey
    rw [h]

/-- C6 witness: a duplicate appended after the first Widget row leaves
the indexed head unchanged. -/
theorem first_seen_dedup_witness :
    (indexRows ([rowA] ++ [rowA]) "widget").head? =
      (indexRows [rowA] "widget").head? :=
  (first_seen_dedup [rowA] [rowA] [] [] [] [] [] [] "widget"
    (by decide)).2.1 ⟨rowA, List.mem_singleton_self rowA, by decide⟩

/-- C7: every field outside the six merge-managed ones passes through
from the base record, and the base record is square's first row when
present, else palka's, else tbd's. -/
theorem passthrough_frame (bs bp bt : Option Row) (f : String)
    (hf : f ∉ (["Description", "SEO Title", "SEO Description", "Categories",
      "_merge_sources", "_merge_notes"] : List String)) :
    (∀ base, mergeFields bs bp bt base f = base f) ∧
    (∀ m, mergeRecord bs bp bt = some m →
      ∃ b, baseOf bs bp bt = some b ∧ m f = b f ∧
        (bs = some b ∨ (bs = none ∧ bp = some b) ∨
          (bs = none ∧ bp = none ∧ bt = some b))) := by
  simp only [List.mem_cons, List.not_mem_nil, or_false, not_or] at hf
  obtain ⟨h1, h2, h3, h4, h5, h6⟩ := hf
  constructor
  · intro base
    exact mergeFields_frame bs bp bt base h1 h2 h3 h4 h5 h6
  · intro m hm
    cases hb : baseOf bs bp bt with
    | none =>
      unfold mergeRecord at hm
      rw [hb] at hm
      exact absurd hm (by simp)
    | some b =>
      refine ⟨b, rfl, ?_, baseOf_eq_some hb⟩
      unfold mergeRecord at hm
      rw [hb] at hm
      simp only [Option.map_some', Option.some.injEq] at hm
      rw [← hm]
      exact mergeFields_frame bs bp bt b h1 h2 h3 h4 h5 h6

/-- C7 witness: the SKU field of a merged record is the base row's SKU. -/
theorem passthrough_frame_witness :
    mergeFields (some rowA) none none rowA "SKU" = rowA "SKU" :=
  (passthrough_frame (some rowA) none none "SKU" (by decide)).1 rowA

/-- The one-product sample catalog evaluates to its single record. -/
lemma mergedCatalog_rowA :
    mergedCatalog [rowA] [] [] = [mergeFields (some rowA) none none rowA] :=
  rfl

/-- C8: every record of the merged output carries a non-null Item Name,
namely the one of the row that seeded its base record, whose cleaned
form is the record's (nonempty) key. -/
theorem merged_itemname_nonnull (sq pk tb : List Row) (m : Row)
    (hm : m ∈ mergedCatalog sq pk tb) :
    m "Item Name" ≠ none ∧
    ∃ k b, k ∈ allKeys sq pk tb ∧ mergeKey sq pk tb k = some m ∧
      baseOf ((indexRows sq k).head?) ((indexRows pk k).head?)
        ((indexRows tb k).head?) = some b ∧
      m "Item Name" = b "Item Name" ∧ clean_name (b "Item Name") = k := by
  obtain ⟨k, hk, hkm⟩ := List.mem_filterMap.mp hm
  have hkne : k ≠ "" := (mem_allKeys.mp hk).1
  cases hb : baseOf ((indexRows sq k).head?) ((indexRows pk k).head?)
      ((indexRows tb k).head?) with
  | none =>
    exfalso
    unfold mergeKey mergeRecord at hkm
    rw [hb] at hkm
    exact absurd hkm (by simp)
  | some b =>
    have hmb : m = mergeFields ((indexRows sq k).head?)
        ((indexRows pk k).head?) ((indexRows tb k).head?) b := by
      unfold mergeKey mergeRecord at hkm
      rw [hb] at hkm
      simp only [Option.map_some', Option.some.injEq] at hkm
      exact hkm.symm
    have hfr : m "Item Name" = b "Item Name" := by
      rw [hmb]
      exact mergeFields_frame _ _ _ _ (by decide) (by decide) (by decide)
        (by decide) (by decide) (by decide)
    have hbk : clean_name (b "Item Name") = k := by
      rcases baseOf_eq_some hb with h | ⟨_, h⟩ | ⟨_, _, h⟩
      · exact (mem_of_indexRows_head hkne h).2
      · exact (mem_of_indexRows_head hkne h).2
      · exact (mem_of_indexRows_head hkne h).2
    refine ⟨?_, k, b, hk, hkm, hb, hfr, hbk⟩
    intro hnone
    rw [hfr] at hnone
    rw [hnone] at hbk
    exact hkne (by rw [← hbk]; rfl)

/-- C8 witness: the single merged Widget record has a non-null name. -/
theorem merged_itemname_nonnull_witness :
    (mergeFields (some rowA) none none rowA) "Item Name" ≠ none :=
  (merged_itemname_nonnull [rowA] [] []
    (mergeFields (some rowA) none none rowA)
    (by rw [mergedCatalog_rowA]; exact List.mem_singleton_self _)).1

/-- C9: the validator accumulates every detected problem into the one
returned list — the missing-header report when some required column is
absent, a value report for every checked column lacking its expected
literal, and a missing-column report for every absent checked column. -/
theorem validator_accumulates (t : Table) :
    ((REQUIRED_COLUMNS.filter (fun c => decide (c ∉ columnNames t))) ≠ [] →
      VError.missingHeaders (sortStrs (REQUIRED_COLUMNS.filter
        (fun c => decide (c ∉ columnNames t)))) ∈ validate_values t) ∧
    (∀ field expected cells, (field, expected) ∈ REQUIRED_VALUES →
      getCol t field = some cells → expected ∉ distinctStripped cells →
      VError.unexpectedValue field expected (distinctStripped cells)
        ∈ validate_values t) ∧
    (∀ field expected, (field, expected) ∈ REQUIRED_VALUES →
      getCol t field = none →
      VError.missingColumn field ∈ validate_values t) := by
  refine ⟨?_, ?_, ?_⟩
  · intro h
    unfold validate_values
    apply List.mem_append_left
    rw [if_neg h]
    exact List.mem_singleton_self _
  · intro field expected cells hmem hcol hnot
    unfold validate_values
    apply List.mem_append_right
    apply List.mem_flatten.mpr
    refine ⟨_, List.mem_map_of_mem _ hmem, ?_⟩
    simp only [hcol]
    rw [if_neg hnot]
    exact List.mem_singleton_self _
  · intro field expected hmem hcol
    unfold validate_values
    apply List.mem_append_right
    apply List.mem_flatten.mpr
    refine ⟨_, List.mem_map_of_mem _ hmem, ?_⟩
    simp only [hcol]
    exact List.mem_singleton_self _

/-- C9 witness: the sample table missing Token with Sold Online holding
only the value N gets both problems reported in the one invocation. -/
theorem validator_accumulates_witness :
    VError.missingHeaders (sortStrs (REQUIRED_COLUMNS.filter
      (fun c => decide (c ∉ columnNames sampleTable))))
      ∈ validate_values sampleTable ∧
    VError.unexpectedValue "Sold Online" "Y"
      (distinctStripped [some "N", none]) ∈ validate_values sampleTable := by
  constructor
  · exact (validator_accumulates sampleTable).1 (by decide)
  · exact (validator_accumulates sampleTable).2.1 "Sold Online" "Y"
      [some "N", none] (by decide) (by decide) (by decide)

/-- C10: one pass of the manual SEO patch for one entry leaves the
catalog unchanged (reporting the miss) when no row's Item Name equals
the entry's name exactly; when a match exists only the first matching
row changes, and only its four SEO fields, which take exactly the
entry's values. -/
theorem manual_seo_update_frame (now : String) (u : SeoUpdate) :
    (∀ df : List Row, (∀ r ∈ df, r "Item Name" ≠ some u.name) →
      applyUpdate now u df = (df, false)) ∧
    (∀ pre r post, (∀ p ∈ pre, p "Item Name" ≠ some u.name) →
      r "Item Name" = some u.name →
      applyUpdate now u (pre ++ r :: post) =
        (pre ++ setRowFields u now r :: post, true)) ∧
    (∀ r f, f ∉ (["SEO Title", "SEO Description", "_seo_keywords",
        "_seo_updated"] : List String) → setRowFields u now r f = r f) ∧
    (∀ r, setRowFields u now r "SEO Title" = some u.seo_title ∧
      setRowFields u now r "SEO Description" = some u.seo_description ∧
      setRowFields u now r "_seo_keywords" = some u.keywords ∧
      setRowFields u now r "_seo_updated" = some now) := by
  refine ⟨?_, ?_, ?_, ?_⟩
  · intro df h
    induction df with
    | nil => rfl
    | cons a t ih =>
      simp only [applyUpdate]
      rw [if_neg (h a (List.mem_cons_self a t)),
        ih (fun x hx => h x (List.mem_cons_of_mem a hx))]
  · intro pre r post hpre hr
    induction pre with
    | nil =>
      simp only [List.nil_append, applyUpdate]
      rw [if_pos hr]
    | cons a t ih =>
      simp only [List.cons_append, applyUpdate, List.append_eq]
      rw [if_neg (hpre a (List.mem_cons_self a t)),
        ih (fun x hx => hpre x (List.mem_cons_of_mem a hx))]
  · intro r f hf
    simp only [List.mem_cons, List.not_mem_nil, or_false, not_or] at hf
    obtain ⟨h1, h2, h3, h4⟩ := hf
    unfold setRowFields
    rw [setField_ne _ _ h4, setField_ne _ _ h3, setField_ne _ _ h2,
      setField_ne _ _ h1]
  · intro r
    refine ⟨?_, ?_, ?_, ?_⟩ <;> unfold setRowFields
    · rw [setField_ne _ _ (by decide), setField_ne _ _ (by decide),
        setField_ne _ _ (by decide), setField_same]
    · rw [setField_ne _ _ (by decide), setField_ne _ _ (by decide),
        setField_same]
    · rw [setField_ne _ _ (by decide), setField_same]
    · rw [setField_same]

/-- C10 witness: the sample entry skips the non-matching first row,
patches the Widget row, and leaves its SKU untouched. -/
theorem manual_seo_update_frame_witness :
    applyUpdate "2025-08-03T12:00:00" sampleUpdate ([rowCatC] ++ rowA :: []) =
      ([rowCatC] ++
        setRowFields sampleUpdate "2025-08-03T12:00:00" rowA :: [], true) ∧
    setRowFields sampleUpdate "2025-08-03T12:00:00" rowA "SKU" =
      rowA "SKU" := by
  constructor
  · exact (manual_seo_update_frame "2025-08-03T12:00:00" sampleUpdate).2.1
      [rowCatC] rowA []
      (fun p hp => by rw [List.mem_singleton.mp hp]; decide) (by decide)
  · exact (manual_seo_update_frame "2025-08-03T12:00:00" sampleUpdate).2.2.1
      rowA "SKU" (by decide)

end Catalog
